import Mathlib

/-
  Verification development for the threshold-combination discovery and
  aggregation engine of fetch-sep (src/fetch_sep/opsep/batch_run_opsep.py).

  Shallow embedding conventions:
  * Python numbers appearing in thresholds are modelled by their `str()`
    rendering (a `String`); distinct numeric values have distinct renderings,
    and equality of renderings models Python `==` on those values.
  * Energy-channel bounds are modelled as `Int` (the code compares
    `energy_max == -1`); their `str()` rendering is `intStr`.
  * The filesystem is a partial map from path strings to file contents.
  * The external CCMC json accessor (`ccmc_json_handler` / `keys`) is
    modelled by the fields of `DocData`: per-block threshold arrays for the
    four array-valued keys, and a quantity lookup keyed by semantic key,
    energy channel and threshold, returning a Python value (`PyVal`).
  * `cfg.errval` is the string "Value Not Found"; a missing threshold inside
    an array element is modelled as `none`.
-/

namespace FetchSep

/-! ### Decimal rendering of numbers (Python `str` on ints, `{0:d}` / `{1:02d}` formats) -/

/-- Fuel-driven decimal digit expansion; `decCharsAux f n` is the decimal
digit string of `n` (most significant first) provided `n ≤ f`. -/
def decCharsAux : Nat → Nat → List Char
  | 0, _ => []
  | fuel + 1, n =>
    if n = 0 then [] else decCharsAux fuel (n / 10) ++ [Nat.digitChar (n % 10)]

/-- Decimal digits of a positive natural, most significant first. -/
def decChars (n : Nat) : List Char := decCharsAux n n

/-- Python `str` of a natural number (also the `{0:d}` format). -/
def decStr (n : Nat) : String := if n = 0 then "0" else ⟨decChars n⟩

/-- Python `str` of an int. -/
def intStr (i : Int) : String :=
  if i < 0 then "-" ++ decStr i.natAbs else decStr i.toNat

/-- Zero-padding to width `w` (the Python `{:0wd}` format). -/
def zpad (w : Nat) (n : Nat) : String :=
  ⟨List.replicate (w - (decStr n).data.length) '0' ++ (decStr n).data⟩

/-- The date string written into a row by `write_sep_lists`:
Python format string `{0:d}-{1:02d}-{2:02d}` applied to (year, month, day).
Note the year is NOT zero padded. -/
def formatDate (y mo da : Nat) : String :=
  decStr y ++ "-" ++ zpad 2 mo ++ "-" ++ zpad 2 da

/-! ### Character-level splitting (models Python `str.split`) -/

/-- Split a character list at every occurrence of `sep` (the separators are
dropped; `n` separators yield `n+1` chunks). -/
def splitCharList (sep : Char) : List Char → List (List Char)
  | [] => [[]]
  | c :: cs =>
    match splitCharList sep cs with
    | [] => [[c]]
    | h :: t => if c = sep then [] :: h :: t else (c :: h) :: t

/-- Split a string on commas (models `row.split(',')`). -/
def splitComma (s : String) : List String :=
  (splitCharList ',' s.data).map (fun l => ⟨l⟩)

/-- The rows of a sink file: all lines after the header line, with empty
lines discarded (the files always end in a newline, contributing one empty
trailing chunk). `none` is a file that does not exist. -/
def sinkRows : Option String → List (List Char)
  | none => []
  | some s => ((splitCharList '\n' s.data).drop 1).filter (fun l => l ≠ [])

/-! ### Python value model -/

/-- `cfg.errval`. -/
def errval : String := "Value Not Found"

/-- A value returned by the json accessor, as the Python code can observe it:
`None`, a string, a `datetime` (with its calendar fields and its `str()`
rendering), or a number (kept abstract as its `str()` rendering). -/
inductive PyVal where
  | pynone : PyVal
  | pystr : String → PyVal
  | pydatetime : Nat → Nat → Nat → String → PyVal
  | pynum : String → PyVal
deriving DecidableEq

/-- Python `str()` of a value. -/
def pyStr : PyVal → String
  | .pynone => "None"
  | .pystr s => s
  | .pydatetime _ _ _ r => r
  | .pynum r => r

/-- The skip test of `write_sep_lists`:
`start_time == '' or start_time == None or start_time == cfg.errval`. -/
def isSkip (v : PyVal) : Bool :=
  decide (v = .pystr "" ∨ v = .pynone ∨ v = .pystr errval)

/-! ### Data model: energy channels, combinations, result documents -/

/-- An energy channel dictionary; `emax = -1` denotes an integral channel. -/
structure EnergyChannel where
  emin : Int
  emax : Int
deriving DecidableEq

/-- A `{'energy_channel': ..., 'threshold': ...}` dictionary. The threshold
number is modelled by its `str()` rendering. -/
structure Combination where
  energy_channel : EnergyChannel
  threshold : String
deriving DecidableEq

/-- One forecast block of the json document. Each of the four array-valued
fields (`event_lengths`, `fluence_spectra`, `threshold_crossings`,
`probabilities`) is the list of threshold values read per array element via
the matching threshold identifier; `none` models the accessor returning
`cfg.errval` for that element. -/
structure Block where
  energy_channel : EnergyChannel
  event_lengths : List (Option String)
  fluence_spectra : List (Option String)
  threshold_crossings : List (Option String)
  probabilities : List (Option String)
deriving DecidableEq

/-- Semantic keys passed to `return_json_value_by_threshold`. -/
inductive QKey where
  | event_length_start_time : QKey
  | event_length_end_time : QKey
  | peak_intensity : QKey
  | peak_intensity_time : QKey
  | peak_intensity_max : QKey
  | peak_intensity_max_time : QKey
  | fluence : QKey
deriving DecidableEq

/-- A parsed result document as `batch_run_opsep` observes it through the
accessor: the short name, the options field (`some` iff the json value is a
list), the forecast blocks, and the quantity lookup by key, energy channel
and threshold. `id_energy_min` / `id_energy_max` return the `min` / `max`
of the block's own energy-channel dictionary. -/
structure DocData where
  short_name : String
  options : Option (List String)
  blocks : List Block
  quant : QKey → EnergyChannel → String → PyVal

/-! ### Model of `read_sep_dates` -/

/-- A parsed `datetime.datetime` value. -/
structure PyDateTime where
  year : Nat
  month : Nat
  day : Nat
  hour : Nat
  minute : Nat
  second : Nat
deriving DecidableEq

/-- Python `str()` of a datetime: `YYYY-MM-DD HH:MM:SS` (all zero padded). -/
def dtRender (t : PyDateTime) : String :=
  zpad 4 t.year ++ "-" ++ zpad 2 t.month ++ "-" ++ zpad 2 t.day ++ " " ++
    zpad 2 t.hour ++ ":" ++ zpad 2 t.minute ++ ":" ++ zpad 2 t.second

/-- Numeric value of a decimal digit character. -/
def digitVal (c : Char) : Nat := c.toNat - 48

/-- The number of days of a month, with the Gregorian leap rule — the
calendar validation the `datetime` constructor performs when `strptime`
builds the parsed value. -/
def daysInMonth (y mo : Nat) : Nat :=
  if mo = 2 then
    if y % 4 = 0 ∧ (y % 100 ≠ 0 ∨ y % 400 = 0) then 29 else 28
  else if mo = 4 ∨ mo = 6 ∨ mo = 9 ∨ mo = 11 then 30
  else 31

/-- Model of `datetime.strptime(s, "%Y-%m-%d")` on a 10-character string:
four digits, dash, two digits, dash, two digits, with the month in 1..12 and
the day valid for that month and year (a calendar-invalid day such as
`2021-04-31` raises `ValueError`, modelled as `none`). -/
def parse10 (s : String) : Option PyDateTime :=
  match s.data with
  | [y1, y2, y3, y4, h1, m1, m2, h2, d1, d2] =>
    if y1.isDigit && y2.isDigit && y3.isDigit && y4.isDigit && (h1 == '-') &&
        m1.isDigit && m2.isDigit && (h2 == '-') && d1.isDigit && d2.isDigit then
      let y := ((digitVal y1 * 10 + digitVal y2) * 10 + digitVal y3) * 10 + digitVal y4
      let mo := digitVal m1 * 10 + digitVal m2
      let da := digitVal d1 * 10 + digitVal d2
      if 1 ≤ mo ∧ mo ≤ 12 ∧ 1 ≤ da ∧ da ≤ daysInMonth y mo then
        some ⟨y, mo, da, 0, 0, 0⟩
      else none
    else none
  | _ => none

/-- Model of `datetime.strptime(s, "%Y-%m-%d %H:%M:%S")` on a string of
exactly 19 characters (shorter, malformed, or calendar-invalid inputs raise
`ValueError`, modelled as `none`). -/
def parse19 (s : String) : Option PyDateTime :=
  match s.data with
  | [y1, y2, y3, y4, h1, m1, m2, h2, d1, d2, sp, hh1, hh2, c1, n1, n2, c2, s1, s2] =>
    if y1.isDigit && y2.isDigit && y3.isDigit && y4.isDigit && (h1 == '-') &&
        m1.isDigit && m2.isDigit && (h2 == '-') && d1.isDigit && d2.isDigit &&
        (sp == ' ') && hh1.isDigit && hh2.isDigit && (c1 == ':') &&
        n1.isDigit && n2.isDigit && (c2 == ':') && s1.isDigit && s2.isDigit then
      let y := ((digitVal y1 * 10 + digitVal y2) * 10 + digitVal y3) * 10 + digitVal y4
      let mo := digitVal m1 * 10 + digitVal m2
      let da := digitVal d1 * 10 + digitVal d2
      let hh := digitVal hh1 * 10 + digitVal hh2
      let mi := digitVal n1 * 10 + digitVal n2
      let ss := digitVal s1 * 10 + digitVal s2
      if 1 ≤ mo ∧ mo ≤ 12 ∧ 1 ≤ da ∧ da ≤ daysInMonth y mo ∧ hh ≤ 23 ∧ mi ≤ 59 ∧ ss ≤ 59 then
        some ⟨y, mo, da, hh, mi, ss⟩
      else none
    else none
  | _ => none

/-- The fatal errors `read_sep_dates` can raise: an `IndexError` from
`row[i]` on a short row, a `ValueError` from `strptime`, the `NameError`
from `str(stdate)` when no date was ever parsed, and the `sys.exit` call. -/
inductive RowErr where
  | indexError : RowErr
  | valueError : RowErr
  | nameError : RowErr
  | sysExit : String → RowErr
deriving DecidableEq

/-- The loop state of `read_sep_dates`: the (function-local, hence
row-to-row persistent) `stdate` / `enddate` variables and the accumulated
output lists. -/
structure RState where
  stdate : Option PyDateTime
  enddate : Option PyDateTime
  start_dates : List String
  end_dates : List String
  experiments : List String
  flux_types : List String
  flags : List String
  model_names : List String
  user_files : List String
  options : List String
  bgstartdate : List String
  bgenddate : List String
  json_types : List String
deriving DecidableEq

/-- Initial state of the read loop. -/
def initRState : RState := ⟨none, none, [], [], [], [], [], [], [], [], [], [], []⟩

/-- The date-field handling of `read_sep_dates` for one field `f`:
`if len(f) > 10: d = strptime(f[0:19], "%Y-%m-%d %H:%M:%S")` then
`if len(f) == 10: d = strptime(f[0:10], "%Y-%m-%d")`; a field shorter than
10 characters leaves the variable at its previous value `prev`. -/
def parseDateField (prev : Option PyDateTime) (f : String) :
    Except RowErr (Option PyDateTime) :=
  if 10 < f.data.length then
    match parse19 ⟨f.data.take 19⟩ with
    | some d => .ok (some d)
    | none => .error .valueError
  else if f.data.length = 10 then
    match parse10 f with
    | some d => .ok (some d)
    | none => .error .valueError
  else .ok prev

/-- One iteration of the `for row in readCSV` loop of `read_sep_dates`,
mirroring the source order: comment skip on `'#' in row[0]`, the two date
fields, the appends (columns 2..10, missing trailing columns defaulting to
the empty string), and finally the `row[1] == 'user'` length check that
calls `sys.exit`. -/
def stepRow (st : RState) (row : List String) : Except RowErr RState :=
  match row.get? 0 with
  | none => .error .indexError
  | some f0 =>
    if '#' ∈ f0.data then .ok st
    else
      match parseDateField st.stdate f0 with
      | .error e => .error e
      | .ok stdate =>
        match row.get? 1 with
        | none => .error .indexError
        | some f1 =>
          match parseDateField st.enddate f1 with
          | .error e => .error e
          | .ok enddate =>
            match stdate with
            | none => .error .nameError
            | some d0 =>
              match enddate with
              | none => .error .nameError
              | some d1 =>
                match row.get? 2 with
                | none => .error .indexError
                | some f2 =>
                  match row.get? 3 with
                  | none => .error .indexError
                  | some f3 =>
                    let st' : RState :=
                      { stdate := stdate, enddate := enddate,
                        start_dates := st.start_dates ++ [dtRender d0],
                        end_dates := st.end_dates ++ [dtRender d1],
                        experiments := st.experiments ++ [f2],
                        flux_types := st.flux_types ++ [f3],
                        flags := st.flags ++ [row.getD 4 ""],
                        model_names := st.model_names ++ [row.getD 5 ""],
                        user_files := st.user_files ++ [row.getD 6 ""],
                        options := st.options ++ [row.getD 7 ""],
                        bgstartdate := st.bgstartdate ++ [row.getD 8 ""],
                        bgenddate := st.bgenddate ++ [row.getD 9 ""],
                        json_types := st.json_types ++ [row.getD 10 ""] }
                    if f1 = "user" ∧ row.length < 7 then
                      .error (.sysExit "For a user file, you must specify model name and input filename in the list.")
                    else .ok st'

/-- `read_sep_dates`, over an already-tokenised csv (each row a list of
field strings). A fatal error aborts the whole read: no partial lists are
returned. -/
def read_sep_dates (rows : List (List String)) : Except RowErr RState :=
  rows.foldlM stepRow initRState

/-! ### Combination discovery and `initialize_files` -/

/-- The dedup insertion of the discovery loop:
`if combo not in combos: combos.append(combo)`. -/
def insertCombo (combos : List Combination) (c : Combination) : List Combination :=
  if c ∈ combos then combos else combos ++ [c]

/-- The four threshold-bearing array fields of a block, in the order of
`array_ids` / `thresh_ids` in the source. -/
def blockThreshLists (b : Block) : List (List (Option String)) :=
  [b.event_lengths, b.fluence_spectra, b.threshold_crossings, b.probabilities]

/-- Inner loop over one array field: each element's threshold is read; if it
is not `cfg.errval` the combination is inserted. -/
def scanArr (ch : EnergyChannel) (acc : List Combination)
    (arr : List (Option String)) : List Combination :=
  arr.foldl
    (fun a t? =>
      match t? with
      | some t => insertCombo a ⟨ch, t⟩
      | none => a) acc

/-- Middle loop over the four array fields of one block. -/
def scanBlock (acc : List Combination) (b : Block) : List Combination :=
  (blockThreshLists b).foldl (scanArr b.energy_channel) acc

/-- The discovery phase of `initialize_files`: the deduplicated list of all
(energy channel, threshold) combinations of the document. -/
def discoverCombos (blocks : List Block) : List Combination :=
  blocks.foldl scanBlock []

/-- A filesystem: path → file content. -/
def FS : Type := String → Option String

/-- The filename built by `initialize_files` (without the list directory). -/
def sinkNameInit (c : Combination) : String :=
  if c.energy_channel.emax = -1 then
    "sep_list_" ++ intStr c.energy_channel.emin ++ "MeV_" ++ c.threshold ++ "pfu.csv"
  else
    "sep_list_" ++ intStr c.energy_channel.emin ++ "-" ++
      intStr c.energy_channel.emax ++ "MeV_" ++ c.threshold ++ "dpfu.csv"

/-- The full sink path built by `initialize_files`. -/
def threshfileInit (lp : String) (c : Combination) : String :=
  lp ++ "/" ++ sinkNameInit c

/-- The fluence-unit suffix of the header, as built in `initialize_files`. -/
def bin_defInit (c : Combination) : String :=
  if c.energy_channel.emax = -1 then
    ">" ++ intStr c.energy_channel.emin ++ " MeV [cm-2 sr-1]"
  else
    intStr c.energy_channel.emin ++ "-" ++ intStr c.energy_channel.emax ++
      " MeV [MeV-1 cm-2 sr-1]"

/-- The fixed column part of the header line. -/
def headerCols : String :=
  "#Experiment,SEP Date,Start Time,End Time,Onset Peak Flux,Onset Peak Time,Max Flux,Max Flux Time,Channel Fluence "

/-- The header line written by `initialize_files` (without trailing newline). -/
def headerInit (c : Combination) : String := headerCols ++ bin_defInit c

/-- The per-combination file creation of `initialize_files`: the file is
opened with mode `'w+'`, which truncates any existing file, and the header
plus newline is written. -/
def createSink (lp : String) (fs : FS) (c : Combination) : FS :=
  fun p => if p = threshfileInit lp c then some (headerInit c ++ "\n") else fs p

/-- Model of `initialize_files`: discovery followed by creation of one sink
file per combination. Returns the combinations and the new filesystem. -/
def init_files (lp : String) (dd : DocData) (fs : FS) :
    List Combination × FS :=
  let combos := discoverCombos dd.blocks
  (combos, combos.foldl (createSink lp) fs)

/-! ### Model of `write_sep_lists` -/

/-- The filename built inside `write_sep_lists` from the block's
`energy_min` / `energy_max` and the combination's threshold. -/
def sinkNameWrite (emin emax : Int) (thresh : String) : String :=
  if emax = -1 then
    "sep_list_" ++ intStr emin ++ "MeV_" ++ thresh ++ "pfu.csv"
  else
    "sep_list_" ++ intStr emin ++ "-" ++ intStr emax ++ "MeV_" ++ thresh ++ "dpfu.csv"

/-- The full sink path built inside `write_sep_lists`. -/
def threshfileWrite (lp : String) (emin emax : Int) (thresh : String) : String :=
  lp ++ "/" ++ sinkNameWrite emin emax thresh

/-- The fluence-unit suffix as built inside `write_sep_lists` (assigned the
integral form, then overwritten when `energy_max != -1`). -/
def bin_defWrite (emin emax : Int) : String :=
  let b := ">" ++ intStr emin ++ " MeV [cm-2 sr-1]"
  if emax ≠ -1 then
    intStr emin ++ "-" ++ intStr emax ++ " MeV [MeV-1 cm-2 sr-1]"
  else b

/-- The header line written by the lazy creation in `write_sep_lists`. -/
def headerWrite (emin emax : Int) : String := headerCols ++ bin_defWrite emin emax

/-- The source-name derivation of `write_sep_lists`: when the options field
is a list, sort it, then append each option whose strip is non-empty
(underscore separated, stripped). `pyStrip` / `pySorted` model Python
`str.strip` and `sorted` on strings. -/
def isPySpace (c : Char) : Bool :=
  c == ' ' || c == '\t' || c == '\n' || c == '\r' ||
    c == Char.ofNat 11 || c == Char.ofNat 12

/-- Python `str.strip()` (`opt.lstrip().strip()` in the source collapses to
a plain strip). -/
def pyStrip (s : String) : String :=
  ⟨((s.data.dropWhile isPySpace).reverse.dropWhile isPySpace).reverse⟩

/-- Lexicographic (code-point) comparison `a ≤ b` on strings. -/
def leChars : List Char → List Char → Bool
  | [], _ => true
  | _ :: _, [] => false
  | a :: as, b :: bs => if a = b then leChars as bs else decide (a < b)

/-- Insert into an ascending list, keeping earlier equal elements first. -/
def pyInsert (x : String) : List String → List String
  | [] => [x]
  | y :: ys => if leChars y.data x.data then y :: pyInsert x ys else x :: y :: ys

/-- Python `sorted` on a list of strings (ascending code-point order). -/
def pySorted (l : List String) : List String := l.foldr pyInsert []

/-- `exp_name` derivation of `write_sep_lists` lines 348-354. -/
def deriveExpName (base : String) (opts? : Option (List String)) : String :=
  match opts? with
  | none => base
  | some opts =>
    (pySorted opts).foldl
      (fun acc opt => if pyStrip opt = "" then acc else acc ++ "_" ++ pyStrip opt)
      base

/-- The lazy sink creation of `write_sep_lists`: only when no file exists at
the path is it created with the header line. -/
def lazyEnsure (fs : FS) (path hdr : String) : FS :=
  if (fs path).isSome then fs
  else fun p => if p = path then some (hdr ++ "\n") else fs p

/-- Append one line (plus terminating newline) to the file at `path`. -/
def appendTo (fs : FS) (path line : String) : FS :=
  fun p => if p = path then some (((fs p).getD "") ++ line ++ "\n") else fs p

/-- The row written for one (document, combination): the nine
comma-separated fields in header order. -/
def rowString (expName dateStr : String)
    (stv etv opv optv mfv mftv flv : PyVal) : String :=
  expName ++ "," ++ dateStr ++ "," ++ pyStr stv ++ "," ++ pyStr etv ++ "," ++
    pyStr opv ++ "," ++ pyStr optv ++ "," ++ pyStr mfv ++ "," ++ pyStr mftv ++
    "," ++ pyStr flv

/-- The writer state: the filesystem, the list of rows appended so far (in
order, without their terminating newlines), and whether processing is still
alive (`ok = false` models the unhandled `AttributeError` raised by
`start_time.year` when the accessor returns a non-sentinel non-datetime;
everything after that point is dead). -/
structure WState where
  fs : FS
  rows : List String
  ok : Bool

/-- The body of the inner `for j in range(len(combos))` loop of
`write_sep_lists` for block `b` and combination `c`. -/
def processCombo (lp expName : String) (dd : DocData) (b : Block)
    (st : WState) (c : Combination) : WState :=
  if st.ok = false then st
  else if c.energy_channel ≠ b.energy_channel then st
  else
    let emin := b.energy_channel.emin
    let emax := b.energy_channel.emax
    let thresh := c.threshold
    let threshfile := threshfileWrite lp emin emax thresh
    let fs1 := lazyEnsure st.fs threshfile (headerWrite emin emax)
    let stv := dd.quant .event_length_start_time b.energy_channel thresh
    if isSkip stv then { st with fs := fs1 }
    else
      match stv with
      | .pydatetime y mo da _ =>
        let line := rowString expName (formatDate y mo da) stv
          (dd.quant .event_length_end_time b.energy_channel thresh)
          (dd.quant .peak_intensity b.energy_channel thresh)
          (dd.quant .peak_intensity_time b.energy_channel thresh)
          (dd.quant .peak_intensity_max b.energy_channel thresh)
          (dd.quant .peak_intensity_max_time b.energy_channel thresh)
          (dd.quant .fluence b.energy_channel thresh)
        { fs := appendTo fs1 threshfile line, rows := st.rows ++ [line], ok := true }
      | _ => { st with fs := fs1, ok := false }

/-- Model of `write_sep_lists`: derive the source name, then loop over the
blocks and, per block, over the given combinations. The Python function
returns `True` on normal completion; `ok` of the final state is that
return value (or records the fatal `AttributeError`). -/
def write_sep_lists (lp : String) (dd : DocData) (combos : List Combination)
    (fs0 : FS) : WState :=
  let expName := deriveExpName dd.short_name dd.options
  dd.blocks.foldl
    (fun st b => combos.foldl (fun st2 c => processCombo lp expName dd b st2 c) st)
    ⟨fs0, [], true⟩

/-! ### Concrete fixtures and auxiliary definitions -/

/-- A concrete list directory. -/
def lpX : String := "LISTS"

/-- The integral combination greater than 10 MeV at 10 pfu. -/
def comboX : Combination := ⟨⟨10, -1⟩, "10"⟩

/-- A block for the greater-than-10-MeV channel with one event-length threshold. -/
def blockX : Block := ⟨⟨10, -1⟩, [some "10"], [], [], []⟩

/-- The empty filesystem. -/
def emptyFS : FS := fun _ => none

/-- The sink path of `comboX`. -/
def pathX : String := threshfileInit lpX comboX

/-- A document whose accessor finds nothing. -/
def ddInitX : DocData := ⟨"GOES-15", none, [blockX], fun _ _ _ => .pynone⟩

/-- A filesystem in which `comboX`'s sink already exists with a header and
one previously appended row. -/
def fsWithRow : FS :=
  fun p =>
    if p = pathX then
      some (headerInit comboX ++ "\n" ++ "GOES-15,2021-01-01,a,b,c,d,e,f,g" ++ "\n")
    else none


/-- The accessor contract for start times: every event-length start time is
either one of the three skip sentinels or a datetime (any other value makes
the Python code raise an `AttributeError` at `start_time.year`). -/
def StartTyped (dd : DocData) : Prop :=
  ∀ ch t, isSkip (dd.quant QKey.event_length_start_time ch t) = true ∨
    ∃ y mo da r, dd.quant QKey.event_length_start_time ch t = .pydatetime y mo da r


/-- A document whose every start time is the empty string (a skip sentinel). -/
def ddSkip : DocData := ⟨"GOES-15", none, [blockX], fun _ _ _ => .pystr ""⟩

/-- Checks the `YYYY-MM-DD` shape: ten characters, digits except dashes at
positions 4 and 7. -/
def isYYYYMMDD (s : String) : Bool :=
  match s.data with
  | [a, b, c, d, e, f, g, h, i, j] =>
    a.isDigit && b.isDigit && c.isDigit && d.isDigit && (e == '-') &&
      f.isDigit && g.isDigit && (h == '-') && i.isDigit && j.isDigit
  | _ => false


/-- A document with a valid detection on the greater-than-10-MeV channel. -/
def ddRowX : DocData :=
  ⟨"GOES-15", none, [blockX], fun _ _ _ => .pydatetime 2021 9 5 "2021-09-05 01:02:03"⟩

/-- The single row `write_sep_lists` appends for `ddRowX`. -/
def rowX : String :=
  "GOES-15,2021-09-05,2021-09-05 01:02:03,2021-09-05 01:02:03,2021-09-05 01:02:03,2021-09-05 01:02:03,2021-09-05 01:02:03,2021-09-05 01:02:03,2021-09-05 01:02:03"

/-- A document whose event year has only three digits. -/
def dd999 : DocData :=
  ⟨"GOES-15", none, [blockX], fun _ _ _ => .pydatetime 999 1 2 "0999-01-02 00:00:00"⟩

/-- The row `write_sep_lists` appends for `dd999`. -/
def row999 : String :=
  "GOES-15,999-01-02,0999-01-02 00:00:00,0999-01-02 00:00:00,0999-01-02 00:00:00,0999-01-02 00:00:00,0999-01-02 00:00:00,0999-01-02 00:00:00,0999-01-02 00:00:00"

/-- A well-formed manifest data row (StartDate, EndDate, Experiment, FluxType). -/
def rowGood : List String := ["2021-01-01", "2021-01-05", "GOES-13", "integral"]

/-- The loop state after reading `rowGood` alone. -/
def stG : RState := ⟨some ⟨2021, 1, 1, 0, 0, 0⟩, some ⟨2021, 1, 5, 0, 0, 0⟩,
  ["2021-01-01 00:00:00"], ["2021-01-05 00:00:00"], ["GOES-13"], ["integral"],
  [""], [""], [""], [""], [""], [""], [""]⟩

/-- A data row whose StartDate field contains a `#` in the middle. -/
def rowHash : List String := ["2021-01-03 #note", "2021-01-05", "GOES-13", "integral"]

/-- A `user` row with only four columns (no ModelName, no UserFilename). -/
def rowUser4 : List String := ["2021-01-01", "2021-01-05", "user", "integral"]

/-- The state `read_sep_dates` returns for `[rowUser4]`. -/
def stUser4 : RState := ⟨some ⟨2021, 1, 1, 0, 0, 0⟩, some ⟨2021, 1, 5, 0, 0, 0⟩,
  ["2021-01-01 00:00:00"], ["2021-01-05 00:00:00"], ["user"], ["integral"],
  [""], [""], [""], [""], [""], [""], [""]⟩

theorem strData_append (a b : String) : (a ++ b).data = a.data ++ b.data := rfl

theorem splitCharList_ne_nil (sep : Char) (l : List Char) :
    splitCharList sep l ≠ [] := by
  cases l with
  | nil => simp [splitCharList]
  | cons c cs =>
    simp only [splitCharList]
    rcases h : splitCharList sep cs with _ | ⟨h1, t1⟩
    · simp
    · by_cases hc : c = sep <;> simp [hc]

theorem splitCharList_not_mem (sep : Char) (l : List Char) (h : sep ∉ l) :
    splitCharList sep l = [l] := by
  induction l with
  | nil => rfl
  | cons c cs ih =>
    have hc : c ≠ sep := fun e => h (e ▸ List.mem_cons_self c cs)
    have hcs : sep ∉ cs := fun e => h (List.mem_cons_of_mem c e)
    simp only [splitCharList, ih hcs]
    simp [hc]

theorem splitCharList_append_cons (sep : Char) (xs ys : List Char) (h : sep ∉ xs) :
    splitCharList sep (xs ++ sep :: ys) = xs :: splitCharList sep ys := by
  induction xs with
  | nil =>
    simp only [List.nil_append, splitCharList]
    rcases hy : splitCharList sep ys with _ | ⟨h1, t1⟩
    · exact absurd hy (splitCharList_ne_nil sep ys)
    · simp
  | cons c cs ih =>
    have hc : c ≠ sep := fun e => h (e ▸ List.mem_cons_self c cs)
    have hcs : sep ∉ cs := fun e => h (List.mem_cons_of_mem c e)
    simp only [List.cons_append, splitCharList, List.append_eq]
    rw [ih hcs]
    simp [hc]



theorem mem_insertCombo (acc : List Combination) (d c : Combination) :
    c ∈ insertCombo acc d ↔ c ∈ acc ∨ c = d := by
  unfold insertCombo
  by_cases h : d ∈ acc
  · simp only [if_pos h]
    constructor
    · exact Or.inl
    · rintro (hm | rfl)
      · exact hm
      · exact h
  · simp [if_neg h]

theorem nodup_insertCombo (acc : List Combination) (d : Combination)
    (h : acc.Nodup) : (insertCombo acc d).Nodup := by
  unfold insertCombo
  by_cases hd : d ∈ acc
  · simpa [if_pos hd]
  · simp [if_neg hd, List.nodup_append, h, hd]

theorem mem_scanArr (ch : EnergyChannel) (arr : List (Option String))
    (acc : List Combination) (c : Combination) :
    c ∈ scanArr ch acc arr ↔ c ∈ acc ∨ ∃ t, some t ∈ arr ∧ c = ⟨ch, t⟩ := by
  induction arr generalizing acc with
  | nil => simp [scanArr]
  | cons t? rest ih =>
    cases t? with
    | none =>
      simp only [scanArr, List.foldl_cons] at *
      rw [ih]
      constructor
      · rintro (h | ⟨t, ht, rfl⟩)
        · exact Or.inl h
        · exact Or.inr ⟨t, List.mem_cons_of_mem _ ht, rfl⟩
      · rintro (h | ⟨t, ht, rfl⟩)
        · exact Or.inl h
        · rcases List.mem_cons.mp ht with h1 | h1
          · exact absurd h1 (by simp)
          · exact Or.inr ⟨t, h1, rfl⟩
    | some t0 =>
      simp only [scanArr, List.foldl_cons] at *
      rw [ih, mem_insertCombo]
      constructor
      · rintro ((h | rfl) | ⟨t, ht, rfl⟩)
        · exact Or.inl h
        · exact Or.inr ⟨t0, List.mem_cons_self _ _, rfl⟩
        · exact Or.inr ⟨t, List.mem_cons_of_mem _ ht, rfl⟩
      · rintro (h | ⟨t, ht, rfl⟩)
        · exact Or.inl (Or.inl h)
        · rcases List.mem_cons.mp ht with h1 | h1
          · exact Or.inl (Or.inr (by injection h1 with h2; rw [h2]))
          · exact Or.inr ⟨t, h1, rfl⟩

theorem nodup_scanArr (ch : EnergyChannel) (arr : List (Option String))
    (acc : List Combination) (h : acc.Nodup) : (scanArr ch acc arr).Nodup := by
  induction arr generalizing acc with
  | nil => simpa [scanArr]
  | cons t? rest ih =>
    cases t? with
    | none => simpa [scanArr, List.foldl_cons] using ih acc h
    | some t0 =>
      simpa [scanArr, List.foldl_cons] using
        ih (insertCombo acc ⟨ch, t0⟩) (nodup_insertCombo _ _ h)

theorem mem_scanBlock (b : Block) (acc : List Combination) (c : Combination) :
    c ∈ scanBlock acc b ↔
      c ∈ acc ∨ ∃ arr ∈ blockThreshLists b, ∃ t, some t ∈ arr ∧ c = ⟨b.energy_channel, t⟩ := by
  unfold scanBlock
  generalize blockThreshLists b = ls
  induction ls generalizing acc with
  | nil => simp
  | cons arr rest ih =>
    simp only [List.foldl_cons]
    rw [ih, mem_scanArr]
    constructor
    · rintro ((h | ⟨t, ht, rfl⟩) | ⟨a2, ha2, t, ht, rfl⟩)
      · exact Or.inl h
      · exact Or.inr ⟨arr, List.mem_cons_self _ _, t, ht, rfl⟩
      · exact Or.inr ⟨a2, List.mem_cons_of_mem _ ha2, t, ht, rfl⟩
    · rintro (h | ⟨a2, ha2, t, ht, rfl⟩)
      · exact Or.inl (Or.inl h)
      · rcases List.mem_cons.mp ha2 with h1 | h1
        · exact Or.inl (Or.inr ⟨t, h1 ▸ ht, rfl⟩)
        · exact Or.inr ⟨a2, h1, t, ht, rfl⟩

theorem nodup_scanBlock (b : Block) (acc : List Combination) (h : acc.Nodup) :
    (scanBlock acc b).Nodup := by
  unfold scanBlock
  generalize blockThreshLists b = ls
  induction ls generalizing acc with
  | nil => simpa
  | cons arr rest ih =>
    simpa [List.foldl_cons] using ih (scanArr b.energy_channel acc arr) (nodup_scanArr _ _ _ h)

theorem mem_foldl_scanBlock (blocks : List Block) (acc : List Combination)
    (c : Combination) :
    c ∈ blocks.foldl scanBlock acc ↔
      c ∈ acc ∨ ∃ b ∈ blocks, ∃ arr ∈ blockThreshLists b, ∃ t,
        some t ∈ arr ∧ c = ⟨b.energy_channel, t⟩ := by
  induction blocks generalizing acc with
  | nil => simp
  | cons b rest ih =>
    simp only [List.foldl_cons]
    rw [ih, mem_scanBlock]
    constructor
    · rintro ((h | ⟨arr, ha, t, ht, rfl⟩) | ⟨b2, hb2, arr, ha, t, ht, rfl⟩)
      · exact Or.inl h
      · exact Or.inr ⟨b, List.mem_cons_self _ _, arr, ha, t, ht, rfl⟩
      · exact Or.inr ⟨b2, List.mem_cons_of_mem _ hb2, arr, ha, t, ht, rfl⟩
    · rintro (h | ⟨b2, hb2, arr, ha, t, ht, rfl⟩)
      · exact Or.inl (Or.inl h)
      · rcases List.mem_cons.mp hb2 with h1 | h1
        · subst h1
          exact Or.inl (Or.inr ⟨arr, ha, t, ht, rfl⟩)
        · exact Or.inr ⟨b2, h1, arr, ha, t, ht, rfl⟩

theorem nodup_foldl_scanBlock (blocks : List Block) (acc : List Combination)
    (h : acc.Nodup) : (blocks.foldl scanBlock acc).Nodup := by
  induction blocks generalizing acc with
  | nil => simpa
  | cons b rest ih => simpa [List.foldl_cons] using ih _ (nodup_scanBlock b acc h)

theorem foldlInv {α β : Type} (P : β → Prop) (f : β → α → β) :
    ∀ (l : List α) (init : β), P init →
      (∀ st a, a ∈ l → P st → P (f st a)) → P (l.foldl f init) := by
  intro l
  induction l with
  | nil => intro init h _; simpa
  | cons a rest ih =>
    intro init h hstep
    simp only [List.foldl_cons]
    exact ih (f init a) (hstep init a (List.mem_cons_self _ _) h)
      (fun st b hb => hstep st b (List.mem_cons_of_mem _ hb))

/-! ### Concrete fixtures shared by witnesses and counterexamples -/

/-- Claim C2: discovery returns a deduplicated list containing exactly the
combinations whose (structurally equal) pair appears, via a non-sentinel
threshold, in one of the four threshold-bearing array fields of some block. -/
theorem C2_discovery_dedup_complete (blocks : List Block) :
    (discoverCombos blocks).Nodup ∧
    ∀ c : Combination, c ∈ discoverCombos blocks ↔
      ∃ b ∈ blocks, b.energy_channel = c.energy_channel ∧
        ∃ arr ∈ blockThreshLists b, some c.threshold ∈ arr := by
  constructor
  · exact nodup_foldl_scanBlock blocks [] List.nodup_nil
  · intro c
    rw [discoverCombos, mem_foldl_scanBlock]
    simp only [List.not_mem_nil, false_or]
    constructor
    · rintro ⟨b, hb, arr, ha, t, ht, rfl⟩
      exact ⟨b, hb, rfl, arr, ha, ht⟩
    · rintro ⟨b, hb, hch, arr, ha, ht⟩
      refine ⟨b, hb, arr, ha, c.threshold, ht, ?_⟩
      cases c with
      | mk ch th => cases hch; rfl

/-- Claim C4: the sink filename and header unit are deterministic functions
of the energy channel and threshold, identical between `initialize_files`
and the lazy creation in `write_sep_lists`, with the documented integral and
differential shapes. -/
theorem C4_sink_naming :
    (∀ c : Combination,
      sinkNameWrite c.energy_channel.emin c.energy_channel.emax c.threshold = sinkNameInit c ∧
      headerWrite c.energy_channel.emin c.energy_channel.emax = headerInit c) ∧
    sinkNameInit ⟨⟨10, -1⟩, "10"⟩ = "sep_list_10MeV_10pfu.csv" ∧
    bin_defInit ⟨⟨10, -1⟩, "10"⟩ = ">10 MeV [cm-2 sr-1]" ∧
    sinkNameInit ⟨⟨5, 10⟩, "0.001"⟩ = "sep_list_5-10MeV_0.001dpfu.csv" ∧
    bin_defInit ⟨⟨5, 10⟩, "0.001"⟩ = "5-10 MeV [MeV-1 cm-2 sr-1]" := by
  refine ⟨fun c => ⟨?_, ?_⟩, by decide, by decide, by decide, by decide⟩
  · unfold sinkNameWrite sinkNameInit
    by_cases h : c.energy_channel.emax = -1 <;> simp [h]
  · unfold headerWrite headerInit bin_defWrite bin_defInit
    by_cases h : c.energy_channel.emax = -1 <;> simp [h]

set_option maxRecDepth 4000 in
/-- Claim C1 (counterexample): `initialize_files` reopens an existing sink
with mode `'w+'`, truncating it; a previously appended row is lost, refuting
idempotence of sink initialization through `initialize_files`. -/
theorem C1_cex :
    sinkRows ((init_files lpX ddInitX fsWithRow).2 pathX) = [] ∧
    sinkRows (fsWithRow pathX) = [("GOES-15,2021-01-01,a,b,c,d,e,f,g").data] := by
  decide

/-- Claim C1 (amended): only the lazy creation inside `write_sep_lists` is
idempotent and non-destructive (an existing file is left entirely
unchanged); `initialize_files` instead rewrites each discovered sink to
exactly the header line, removing pre-existing rows. -/
theorem C1_amended (fs : FS) (path hdr : String) (lp : String) (c : Combination)
    (h : (fs path).isSome = true) :
    lazyEnsure fs path hdr = fs ∧
    createSink lp fs c (threshfileInit lp c) = some (headerInit c ++ "\n") := by
  constructor
  · unfold lazyEnsure
    simp [h]
  · unfold createSink
    simp

/-- Witness for C1_amended at a concrete filesystem with an existing sink. -/
theorem C1_witness :
    (fsWithRow pathX).isSome = true ∧
    lazyEnsure fsWithRow pathX (headerInit comboX) = fsWithRow :=
  ⟨by decide, (C1_amended fsWithRow pathX (headerInit comboX) lpX comboX (by decide)).1⟩

/-! ### Digit and character-class lemmas -/

theorem digitChar_isDigit (k : Nat) (h : k < 10) : (Nat.digitChar k).isDigit = true := by
  interval_cases k <;> decide

theorem decCharsAux_digits (fuel : Nat) :
    ∀ (n : Nat), ∀ c ∈ decCharsAux fuel n, c.isDigit = true := by
  induction fuel with
  | zero => intro n c hc; simp [decCharsAux] at hc
  | succ f ih =>
    intro n c hc
    simp only [decCharsAux] at hc
    by_cases h : n = 0
    · simp [h] at hc
    · rw [if_neg h] at hc
      rcases List.mem_append.mp hc with h1 | h1
      · exact ih _ c h1
      · have hc2 : c = Nat.digitChar (n % 10) := by simpa using h1
        subst hc2
        exact digitChar_isDigit _ (Nat.mod_lt _ (by omega))

theorem mem_decStr_digit (n : Nat) : ∀ c ∈ (decStr n).data, c.isDigit = true := by
  unfold decStr
  by_cases h : n = 0
  · simp only [h, if_pos]
    decide
  · rw [if_neg h]
    exact decCharsAux_digits n n

theorem mem_intStr (i : Int) : ∀ c ∈ (intStr i).data, c.isDigit = true ∨ c = '-' := by
  unfold intStr
  by_cases h : i < 0
  · rw [if_pos h]
    intro c hc
    rw [strData_append] at hc
    rcases List.mem_append.mp hc with h1 | h1
    · right
      simpa using h1
    · exact Or.inl (mem_decStr_digit _ c h1)
  · rw [if_neg h]
    exact fun c hc => Or.inl (mem_decStr_digit _ c hc)

theorem all_append {p : Char → Prop} (a b : List Char)
    (ha : ∀ c ∈ a, p c) (hb : ∀ c ∈ b, p c) : ∀ c ∈ a ++ b, p c := by
  intro c hc
  rcases List.mem_append.mp hc with h | h
  exacts [ha c h, hb c h]

theorem intStr_nl (i : Int) : ∀ c ∈ (intStr i).data, c ≠ '\n' := by
  intro c hc
  rcases mem_intStr i c hc with h | h
  · intro he; subst he; simp at h
  · intro he; subst he; simp at h

theorem nlFree_bin_defWrite (emin emax : Int) :
    ∀ c ∈ (bin_defWrite emin emax).data, c ≠ '\n' := by
  unfold bin_defWrite
  by_cases he : emax ≠ -1
  · rw [if_pos he]
    simp only [strData_append]
    exact all_append _ _ (all_append _ _ (all_append _ _ (intStr_nl emin) (by decide))
      (intStr_nl emax)) (by decide)
  · rw [if_neg he]
    simp only [strData_append]
    exact all_append _ _ (all_append _ _ (by decide) (intStr_nl emin)) (by decide)

theorem nlFree_headerWrite (emin emax : Int) :
    ∀ c ∈ (headerWrite emin emax).data, c ≠ '\n' := by
  unfold headerWrite
  simp only [strData_append]
  exact all_append _ _ (by decide) (nlFree_bin_defWrite emin emax)

/-! ### `sinkRows` facts -/

theorem sinkRows_header (hdr : String) (h : ∀ c ∈ hdr.data, c ≠ '\n') :
    sinkRows (some (hdr ++ "\n")) = [] := by
  have hnm : '\n' ∉ hdr.data := fun hm => h _ hm rfl
  have hdata : (hdr ++ "\n").data = hdr.data ++ '\n' :: [] := by
    rw [strData_append]
  simp only [sinkRows, hdata, splitCharList_append_cons _ _ _ hnm]
  simp [splitCharList]

/-! ### Pointwise filesystem lemmas -/

theorem lazyEnsure_ne (fs : FS) (path hdr p : String) (h : p ≠ path) :
    lazyEnsure fs path hdr p = fs p := by
  unfold lazyEnsure
  by_cases hs : (fs path).isSome
  · rw [if_pos hs]
  · rw [if_neg hs]
    simp [h]

theorem appendTo_ne (fs : FS) (path line p : String) (h : p ≠ path) :
    appendTo fs path line p = fs p := by
  unfold appendTo
  simp [h]

/-! ### Step lemmas for the writer -/

theorem lazyEnsure_at (fs : FS) (path hdr : String) :
    lazyEnsure fs path hdr path =
      if (fs path).isSome then fs path else some (hdr ++ "\n") := by
  unfold lazyEnsure
  by_cases hs : (fs path).isSome = true <;> simp [hs]

theorem processCombo_fs_ne (lp expName : String) (dd : DocData) (b : Block)
    (st : WState) (c : Combination) (p : String)
    (hp : p ≠ threshfileWrite lp b.energy_channel.emin b.energy_channel.emax c.threshold) :
    (processCombo lp expName dd b st c).fs p = st.fs p := by
  unfold processCombo
  by_cases hok : st.ok = false
  · rw [if_pos hok]
  · rw [if_neg hok]
    by_cases hch : c.energy_channel ≠ b.energy_channel
    · rw [if_pos hch]
    · rw [if_neg hch]
      by_cases hskip : isSkip (dd.quant .event_length_start_time b.energy_channel c.threshold) = true
      · rw [if_pos hskip]
        exact lazyEnsure_ne _ _ _ _ hp
      · rw [if_neg hskip]
        cases hv : dd.quant .event_length_start_time b.energy_channel c.threshold with
        | pynone => exact lazyEnsure_ne _ _ _ _ hp
        | pystr s => exact lazyEnsure_ne _ _ _ _ hp
        | pynum r => exact lazyEnsure_ne _ _ _ _ hp
        | pydatetime y mo da r =>
          dsimp only
          rw [appendTo_ne _ _ _ _ hp]
          exact lazyEnsure_ne _ _ _ _ hp



theorem processCombo_ok (lp expName : String) (dd : DocData) (b : Block)
    (st : WState) (c : Combination)
    (hty : StartTyped dd) (hok : st.ok = true) :
    (processCombo lp expName dd b st c).ok = true := by
  unfold processCombo
  rw [if_neg (by simp [hok])]
  by_cases hch : c.energy_channel ≠ b.energy_channel
  · rw [if_pos hch]; exact hok
  · rw [if_neg hch]
    by_cases hskip : isSkip (dd.quant .event_length_start_time b.energy_channel c.threshold) = true
    · rw [if_pos hskip]; exact hok
    · rw [if_neg hskip]
      rcases hty b.energy_channel c.threshold with h | ⟨y, mo, da, r, h⟩
      · exact absurd h hskip
      · rw [h]

/-- Claim C10: a combination whose energy channel matches no block of the
document has its sink left completely untouched by `write_sep_lists` —
neither created nor appended to. The hypothesis `hinj` states the
injectivity fact of the concrete path renderings: a write path built from a
block and a listed combination can only coincide with the combination's own
sink path if the energy channels coincide (true of the numeric renderings
the Python code produces). -/
theorem C10_untouched_sink (lp : String) (dd : DocData) (combos : List Combination)
    (fs : FS) (c0 : Combination)
    (h1 : ∀ b ∈ dd.blocks, b.energy_channel ≠ c0.energy_channel)
    (hinj : ∀ b ∈ dd.blocks, ∀ c2 ∈ combos,
      threshfileWrite lp b.energy_channel.emin b.energy_channel.emax c2.threshold =
        threshfileInit lp c0 → b.energy_channel = c0.energy_channel) :
    (write_sep_lists lp dd combos fs).fs (threshfileInit lp c0) =
      fs (threshfileInit lp c0) := by
  unfold write_sep_lists
  apply foldlInv (fun st : WState => st.fs (threshfileInit lp c0) = fs (threshfileInit lp c0))
  · rfl
  · intro st b hb hst
    refine foldlInv (fun st2 : WState => st2.fs (threshfileInit lp c0) = fs (threshfileInit lp c0)) _ combos st hst ?_
    intro st2 c hc hst2
    rw [processCombo_fs_ne]
    · exact hst2
    · intro he
      exact h1 b hb (hinj b hb c hc he.symm)

/-- Witness for C10 at a concrete document, combination list and filesystem. -/
theorem C10_witness :
    (∀ b ∈ ([blockX] : List Block), b.energy_channel ≠ (⟨⟨100, -1⟩, "1"⟩ : Combination).energy_channel) ∧
    (write_sep_lists lpX ddInitX [⟨⟨100, -1⟩, "1"⟩, comboX] emptyFS).fs
        (threshfileInit lpX ⟨⟨100, -1⟩, "1"⟩) =
      emptyFS (threshfileInit lpX ⟨⟨100, -1⟩, "1"⟩) :=
  ⟨by decide,
    C10_untouched_sink lpX ddInitX [⟨⟨100, -1⟩, "1"⟩, comboX] emptyFS ⟨⟨100, -1⟩, "1"⟩
      (by decide) (by decide)⟩




theorem processCombo_fs_skip (lp expName : String) (dd : DocData) (b : Block)
    (st : WState) (c : Combination)
    (hok : st.ok = true) (hch : c.energy_channel = b.energy_channel)
    (hskip : isSkip (dd.quant QKey.event_length_start_time b.energy_channel c.threshold) = true) :
    (processCombo lp expName dd b st c).fs =
      lazyEnsure st.fs
        (threshfileWrite lp b.energy_channel.emin b.energy_channel.emax c.threshold)
        (headerWrite b.energy_channel.emin b.energy_channel.emax) := by
  unfold processCombo
  rw [if_neg (by simp [hok]), if_neg (by simp [hch]), if_pos hskip]

/-- Claim C3: when the extracted start time for a combination is one of the
skip sentinels (empty, `None`, `cfg.errval`), `write_sep_lists` appends no
row to that combination's sink (its row list is unchanged; at most the
header-only file is created) and completes normally. `hH` extends the skip
premise to any (block, listed combination) pair whose write path coincides
with the combination's sink path (with the real numeric renderings the path
determines the channel and threshold, so this is exactly the claim's
premise); `hty` is the accessor contract that start times are sentinels or
datetimes. -/
theorem C3_skip_no_row (lp : String) (dd : DocData) (combos : List Combination)
    (fs : FS) (c0 : Combination)
    (hc : isSkip (dd.quant QKey.event_length_start_time c0.energy_channel c0.threshold) = true)
    (hH : ∀ b ∈ dd.blocks, ∀ c2 ∈ combos,
      threshfileWrite lp b.energy_channel.emin b.energy_channel.emax c2.threshold =
        threshfileInit lp c0 →
      isSkip (dd.quant QKey.event_length_start_time b.energy_channel c2.threshold) = true)
    (hty : StartTyped dd) :
    sinkRows ((write_sep_lists lp dd combos fs).fs (threshfileInit lp c0)) =
      sinkRows (fs (threshfileInit lp c0)) ∧
    (write_sep_lists lp dd combos fs).ok = true := by
  set p0 := threshfileInit lp c0 with hp0def
  have hmain : ((write_sep_lists lp dd combos fs).fs p0 = fs p0 ∨
      (fs p0 = none ∧ ∃ e x : Int,
        (write_sep_lists lp dd combos fs).fs p0 = some (headerWrite e x ++ "\n"))) ∧
      (write_sep_lists lp dd combos fs).ok = true := by
    unfold write_sep_lists
    apply foldlInv (fun st : WState =>
      (st.fs p0 = fs p0 ∨ (fs p0 = none ∧ ∃ e x : Int,
        st.fs p0 = some (headerWrite e x ++ "\n"))) ∧ st.ok = true)
    · exact ⟨Or.inl rfl, rfl⟩
    · intro st b hb hst
      refine foldlInv (fun st2 : WState =>
        (st2.fs p0 = fs p0 ∨ (fs p0 = none ∧ ∃ e x : Int,
          st2.fs p0 = some (headerWrite e x ++ "\n"))) ∧ st2.ok = true)
        _ combos st hst ?_
      intro st2 c hc2 hst2
      obtain ⟨hfs, hok⟩ := hst2
      refine ⟨?_, processCombo_ok _ _ _ _ _ _ hty hok⟩
      by_cases hp : threshfileWrite lp b.energy_channel.emin b.energy_channel.emax c.threshold = p0
      · by_cases hch : c.energy_channel = b.energy_channel
        · have hskip := hH b hb c hc2 hp
          rw [processCombo_fs_skip lp _ dd b st2 c hok hch hskip, hp, lazyEnsure_at]
          by_cases hs : (st2.fs p0).isSome = true
          · rw [if_pos hs]; exact hfs
          · rw [if_neg hs]
            have hnone : st2.fs p0 = none := by
              cases hsome : st2.fs p0 with
              | none => rfl
              | some v => rw [hsome] at hs; simp at hs
            right
            rcases hfs with h | ⟨hfsnone, _⟩
            · exact ⟨by rw [← h, hnone], b.energy_channel.emin, b.energy_channel.emax, rfl⟩
            · exact ⟨hfsnone, b.energy_channel.emin, b.energy_channel.emax, rfl⟩
        · have huntouched : (processCombo lp (deriveExpName dd.short_name dd.options) dd b st2 c).fs p0 = st2.fs p0 := by
            unfold processCombo
            rw [if_neg (by simp [hok]), if_pos hch]
          rw [huntouched]
          exact hfs
      · rw [processCombo_fs_ne _ _ _ _ _ _ _ (fun he => hp he.symm)]
        exact hfs
  obtain ⟨hfs, hok⟩ := hmain
  refine ⟨?_, hok⟩
  rcases hfs with h | ⟨hnone, e, x, h⟩
  · rw [h]
  · rw [h, hnone, sinkRows_header _ (nlFree_headerWrite e x)]
    rfl



/-- Witness for C3 at a concrete document whose start time is a sentinel. -/
theorem C3_witness :
    isSkip (ddSkip.quant QKey.event_length_start_time comboX.energy_channel comboX.threshold) = true ∧
    (sinkRows ((write_sep_lists lpX ddSkip [comboX] emptyFS).fs (threshfileInit lpX comboX)) =
      sinkRows (emptyFS (threshfileInit lpX comboX)) ∧
    (write_sep_lists lpX ddSkip [comboX] emptyFS).ok = true) :=
  ⟨by decide,
    C3_skip_no_row lpX ddSkip [comboX] emptyFS comboX (by decide)
      (by intro b hb c2 hc2 hp
          exact (show isSkip (PyVal.pystr "") = true by decide))
      (by intro ch t
          exact Or.inl (show isSkip (PyVal.pystr "") = true by decide))⟩

theorem strEta (s : String) : (⟨s.data⟩ : String) = s := rfl

theorem decCharsAux_zero (f : Nat) : decCharsAux f 0 = [] := by
  cases f <;> simp [decCharsAux]

theorem decCharsAux_mono (n : Nat) : ∀ (f g : Nat), n ≤ f → n ≤ g →
    decCharsAux f n = decCharsAux g n := by
  induction n using Nat.strong_induction_on with
  | _ n ih =>
    intro f g hf hg
    by_cases h0 : n = 0
    · subst h0
      rw [decCharsAux_zero, decCharsAux_zero]
    · obtain ⟨f1, rfl⟩ : ∃ f1, f = f1 + 1 := ⟨f - 1, by omega⟩
      obtain ⟨g1, rfl⟩ : ∃ g1, g = g1 + 1 := ⟨g - 1, by omega⟩
      simp only [decCharsAux, if_neg h0]
      rw [ih (n / 10) (by omega) f1 g1 (by omega) (by omega)]

theorem decChars_step (n : Nat) (h : 0 < n) :
    decChars n = decChars (n / 10) ++ [Nat.digitChar (n % 10)] := by
  unfold decChars
  obtain ⟨m, rfl⟩ : ∃ m, n = m + 1 := ⟨n - 1, by omega⟩
  simp only [decCharsAux, if_neg (by omega : ¬ m + 1 = 0)]
  rw [decCharsAux_mono ((m + 1) / 10) m ((m + 1) / 10) (by omega) (le_refl _)]

theorem decChars_small (n : Nat) (h1 : 0 < n) (h2 : n < 10) :
    decChars n = [Nat.digitChar n] := by
  rw [decChars_step n h1]
  have e1 : n / 10 = 0 := by omega
  have e2 : n % 10 = n := by omega
  rw [e1, e2]
  rfl

theorem decStr_shape4 (y : Nat) (h1 : 1000 ≤ y) (h2 : y < 10000) :
    ∃ a b c d : Char, (decStr y).data = [a, b, c, d] ∧
      a.isDigit = true ∧ b.isDigit = true ∧ c.isDigit = true ∧ d.isDigit = true := by
  have e1 : decChars y = decChars (y / 10) ++ [Nat.digitChar (y % 10)] :=
    decChars_step y (by omega)
  have e2 : decChars (y / 10) = decChars (y / 10 / 10) ++ [Nat.digitChar (y / 10 % 10)] :=
    decChars_step _ (by omega)
  have e3 : decChars (y / 10 / 10) =
      decChars (y / 10 / 10 / 10) ++ [Nat.digitChar (y / 10 / 10 % 10)] :=
    decChars_step _ (by omega)
  have e4 : decChars (y / 10 / 10 / 10) = [Nat.digitChar (y / 10 / 10 / 10)] :=
    decChars_small _ (by omega) (by omega)
  refine ⟨Nat.digitChar (y / 10 / 10 / 10), Nat.digitChar (y / 10 / 10 % 10),
    Nat.digitChar (y / 10 % 10), Nat.digitChar (y % 10), ?_,
    digitChar_isDigit _ (by omega), digitChar_isDigit _ (by omega),
    digitChar_isDigit _ (by omega), digitChar_isDigit _ (by omega)⟩
  unfold decStr
  rw [if_neg (by omega : ¬ y = 0)]
  show decChars y = _
  rw [e1, e2, e3, e4]
  rfl

theorem zpad2_shape (n : Nat) (h1 : 1 ≤ n) (h2 : n ≤ 99) :
    ∃ a b : Char, (zpad 2 n).data = [a, b] ∧ a.isDigit = true ∧ b.isDigit = true := by
  by_cases h : n < 10
  · have e : (decStr n).data = [Nat.digitChar n] := by
      unfold decStr
      rw [if_neg (by omega : ¬ n = 0)]
      exact decChars_small n (by omega) h
    refine ⟨'0', Nat.digitChar n, ?_, by decide, digitChar_isDigit n h⟩
    show List.replicate (2 - (decStr n).data.length) '0' ++ (decStr n).data = _
    rw [e]
    rfl
  · have e1 : decChars n = decChars (n / 10) ++ [Nat.digitChar (n % 10)] :=
      decChars_step n (by omega)
    have e2 : decChars (n / 10) = [Nat.digitChar (n / 10)] :=
      decChars_small _ (by omega) (by omega)
    have e : (decStr n).data = [Nat.digitChar (n / 10), Nat.digitChar (n % 10)] := by
      unfold decStr
      rw [if_neg (by omega : ¬ n = 0)]
      show decChars n = _
      rw [e1, e2]
      rfl
    refine ⟨Nat.digitChar (n / 10), Nat.digitChar (n % 10), ?_,
      digitChar_isDigit _ (by omega), digitChar_isDigit _ (by omega)⟩
    show List.replicate (2 - (decStr n).data.length) '0' ++ (decStr n).data = _
    rw [e]
    rfl

theorem isYYYYMMDD_formatDate (y mo da : Nat)
    (hy1 : 1000 ≤ y) (hy2 : y < 10000) (hm1 : 1 ≤ mo) (hm2 : mo ≤ 12)
    (hd1 : 1 ≤ da) (hd2 : da ≤ 31) :
    isYYYYMMDD (formatDate y mo da) = true := by
  obtain ⟨a, b, c, d, hy, ha, hb, hc, hd⟩ := decStr_shape4 y hy1 hy2
  obtain ⟨e1, e2, he, hie1, hie2⟩ := zpad2_shape mo hm1 (by omega)
  obtain ⟨g1, g2, hg, hig1, hig2⟩ := zpad2_shape da hd1 (by omega)
  have hdata : (formatDate y mo da).data = [a, b, c, d, '-', e1, e2, '-', g1, g2] := by
    unfold formatDate
    simp only [strData_append, hy, he, hg]
    rfl
  unfold isYYYYMMDD
  rw [hdata]
  simp [ha, hb, hc, hd, hie1, hie2, hig1, hig2]




theorem mem_zpad_digit (w n : Nat) : ∀ c ∈ (zpad w n).data, c.isDigit = true := by
  intro c hc
  rcases List.mem_append.mp hc with h | h
  · have he : c = '0' := List.eq_of_mem_replicate h
    subst he
    decide
  · exact mem_decStr_digit n c h

theorem mem_formatDate (y mo da : Nat) :
    ∀ c ∈ (formatDate y mo da).data, c.isDigit = true ∨ c = '-' := by
  unfold formatDate
  simp only [strData_append]
  refine all_append _ _ (all_append _ _ (all_append _ _ (all_append _ _ ?_ ?_) ?_) ?_) ?_
  · exact fun c hc => Or.inl (mem_decStr_digit y c hc)
  · intro c hc
    right
    simpa using hc
  · exact fun c hc => Or.inl (mem_zpad_digit 2 mo c hc)
  · intro c hc
    right
    simpa using hc
  · exact fun c hc => Or.inl (mem_zpad_digit 2 da c hc)

theorem formatDate_commaFree (y mo da : Nat) : ',' ∉ (formatDate y mo da).data := by
  intro h
  rcases mem_formatDate y mo da ',' h with hd | hd <;> simp at hd

theorem formatDate_nlFree (y mo da : Nat) : '\n' ∉ (formatDate y mo da).data := by
  intro h
  rcases mem_formatDate y mo da '\n' h with hd | hd <;> simp at hd

theorem rowString_head (expName dateStr : String) (v1 v2 v3 v4 v5 v6 v7 : PyVal) :
    rowString expName dateStr v1 v2 v3 v4 v5 v6 v7 =
      expName ++ "," ++ (dateStr ++ "," ++ pyStr v1 ++ "," ++ pyStr v2 ++ "," ++
        pyStr v3 ++ "," ++ pyStr v4 ++ "," ++ pyStr v5 ++ "," ++ pyStr v6 ++
        "," ++ pyStr v7) := by
  unfold rowString
  simp [String.append_assoc]

theorem rowString_data (expName dateStr : String) (v1 v2 v3 v4 v5 v6 v7 : PyVal) :
    (rowString expName dateStr v1 v2 v3 v4 v5 v6 v7).data =
      expName.data ++ ',' :: (dateStr.data ++ ',' :: ((pyStr v1).data ++ ',' ::
        ((pyStr v2).data ++ ',' :: ((pyStr v3).data ++ ',' :: ((pyStr v4).data ++ ',' ::
        ((pyStr v5).data ++ ',' :: ((pyStr v6).data ++ ',' :: (pyStr v7).data))))))) := by
  unfold rowString
  simp only [strData_append, List.append_assoc]
  rfl

theorem splitComma_rowString (expName dateStr : String) (v1 v2 v3 v4 v5 v6 v7 : PyVal)
    (h0 : ',' ∉ expName.data) (hd : ',' ∉ dateStr.data)
    (h1 : ',' ∉ (pyStr v1).data) (h2 : ',' ∉ (pyStr v2).data)
    (h3 : ',' ∉ (pyStr v3).data) (h4 : ',' ∉ (pyStr v4).data)
    (h5 : ',' ∉ (pyStr v5).data) (h6 : ',' ∉ (pyStr v6).data)
    (h7 : ',' ∉ (pyStr v7).data) :
    splitComma (rowString expName dateStr v1 v2 v3 v4 v5 v6 v7) =
      [expName, dateStr, pyStr v1, pyStr v2, pyStr v3, pyStr v4, pyStr v5,
        pyStr v6, pyStr v7] := by
  unfold splitComma
  rw [rowString_data,
    splitCharList_append_cons _ _ _ h0, splitCharList_append_cons _ _ _ hd,
    splitCharList_append_cons _ _ _ h1, splitCharList_append_cons _ _ _ h2,
    splitCharList_append_cons _ _ _ h3, splitCharList_append_cons _ _ _ h4,
    splitCharList_append_cons _ _ _ h5, splitCharList_append_cons _ _ _ h6,
    splitCharList_not_mem _ _ h7]
  simp [strEta]




theorem processCombo_rows (lp expName : String) (dd : DocData) (b : Block)
    (st : WState) (c : Combination) :
    (processCombo lp expName dd b st c).rows = st.rows ∨
    ∃ y mo da r,
      dd.quant QKey.event_length_start_time b.energy_channel c.threshold =
        .pydatetime y mo da r ∧
      (processCombo lp expName dd b st c).rows = st.rows ++
        [rowString expName (formatDate y mo da) (.pydatetime y mo da r)
          (dd.quant QKey.event_length_end_time b.energy_channel c.threshold)
          (dd.quant QKey.peak_intensity b.energy_channel c.threshold)
          (dd.quant QKey.peak_intensity_time b.energy_channel c.threshold)
          (dd.quant QKey.peak_intensity_max b.energy_channel c.threshold)
          (dd.quant QKey.peak_intensity_max_time b.energy_channel c.threshold)
          (dd.quant QKey.fluence b.energy_channel c.threshold)] := by
  unfold processCombo
  by_cases hok : st.ok = false
  · rw [if_pos hok]
    exact Or.inl rfl
  · rw [if_neg hok]
    by_cases hch : c.energy_channel ≠ b.energy_channel
    · rw [if_pos hch]
      exact Or.inl rfl
    · rw [if_neg hch]
      by_cases hskip : isSkip (dd.quant .event_length_start_time b.energy_channel c.threshold) = true
      · rw [if_pos hskip]
        exact Or.inl rfl
      · rw [if_neg hskip]
        cases hv : dd.quant .event_length_start_time b.energy_channel c.threshold with
        | pynone => exact Or.inl rfl
        | pystr s => exact Or.inl rfl
        | pynum r => exact Or.inl rfl
        | pydatetime y mo da r => exact Or.inr ⟨y, mo, da, r, rfl, rfl⟩

theorem rows_spec (lp : String) (dd : DocData) (combos : List Combination) (fs : FS) :
    ∀ row ∈ (write_sep_lists lp dd combos fs).rows,
      ∃ ch t y mo da r,
        dd.quant QKey.event_length_start_time ch t = .pydatetime y mo da r ∧
        row = rowString (deriveExpName dd.short_name dd.options) (formatDate y mo da)
          (.pydatetime y mo da r)
          (dd.quant QKey.event_length_end_time ch t)
          (dd.quant QKey.peak_intensity ch t)
          (dd.quant QKey.peak_intensity_time ch t)
          (dd.quant QKey.peak_intensity_max ch t)
          (dd.quant QKey.peak_intensity_max_time ch t)
          (dd.quant QKey.fluence ch t) := by
  unfold write_sep_lists
  apply foldlInv (fun st : WState => ∀ row ∈ st.rows, ∃ ch t y mo da r,
    dd.quant QKey.event_length_start_time ch t = .pydatetime y mo da r ∧
    row = rowString (deriveExpName dd.short_name dd.options) (formatDate y mo da)
      (.pydatetime y mo da r)
      (dd.quant QKey.event_length_end_time ch t)
      (dd.quant QKey.peak_intensity ch t)
      (dd.quant QKey.peak_intensity_time ch t)
      (dd.quant QKey.peak_intensity_max ch t)
      (dd.quant QKey.peak_intensity_max_time ch t)
      (dd.quant QKey.fluence ch t))
  · intro row hr
    simp at hr
  · intro st b hb hst
    refine foldlInv (fun st2 : WState => ∀ row ∈ st2.rows, ∃ ch t y mo da r,
      dd.quant QKey.event_length_start_time ch t = .pydatetime y mo da r ∧
      row = rowString (deriveExpName dd.short_name dd.options) (formatDate y mo da)
        (.pydatetime y mo da r)
        (dd.quant QKey.event_length_end_time ch t)
        (dd.quant QKey.peak_intensity ch t)
        (dd.quant QKey.peak_intensity_time ch t)
        (dd.quant QKey.peak_intensity_max ch t)
        (dd.quant QKey.peak_intensity_max_time ch t)
        (dd.quant QKey.fluence ch t)) _ combos st hst ?_
    intro st2 c hc2 hst2 row hrow
    rcases processCombo_rows lp (deriveExpName dd.short_name dd.options) dd b st2 c with
      he | ⟨y, mo, da, r, hv, he⟩
    · rw [he] at hrow
      exact hst2 row hrow
    · rw [he] at hrow
      rcases List.mem_append.mp hrow with h | h
      · exact hst2 row h
      · have heq : row = rowString (deriveExpName dd.short_name dd.options)
            (formatDate y mo da) (.pydatetime y mo da r)
            (dd.quant QKey.event_length_end_time b.energy_channel c.threshold)
            (dd.quant QKey.peak_intensity b.energy_channel c.threshold)
            (dd.quant QKey.peak_intensity_time b.energy_channel c.threshold)
            (dd.quant QKey.peak_intensity_max b.energy_channel c.threshold)
            (dd.quant QKey.peak_intensity_max_time b.energy_channel c.threshold)
            (dd.quant QKey.fluence b.energy_channel c.threshold) := by
          simpa using h
        exact ⟨b.energy_channel, c.threshold, y, mo, da, r, hv, heq⟩




theorem not_mem_append_cons {c x : Char} {a rest : List Char}
    (ha : c ∉ a) (hx : c ≠ x) (hr : c ∉ rest) : c ∉ a ++ x :: rest := by
  intro h
  rcases List.mem_append.mp h with h1 | h1
  · exact ha h1
  · rcases List.mem_cons.mp h1 with h2 | h2
    · exact hx h2
    · exact hr h2

/-- Claim C5: the source name of every written row is the base name
qualified by the sorted, non-blank, underscore-joined options; a non-list
options value leaves the base name unqualified. -/
theorem C5_source_name :
    (∀ (lp : String) (dd : DocData) (combos : List Combination) (fs : FS) (row : String),
      row ∈ (write_sep_lists lp dd combos fs).rows →
      ∃ rest, row = deriveExpName dd.short_name dd.options ++ "," ++ rest) ∧
    deriveExpName "GOES-15" (some ["Bruno2017", "S14"]) = "GOES-15_Bruno2017_S14" ∧
    deriveExpName "GOES-15" (some ["S14", "Bruno2017"]) = "GOES-15_Bruno2017_S14" ∧
    deriveExpName "GOES-15" (some ["  ", "S14"]) = "GOES-15_S14" ∧
    ∀ base : String, deriveExpName base none = base := by
  refine ⟨?_, by decide, by decide, by decide, fun base => rfl⟩
  intro lp dd combos fs row hrow
  obtain ⟨ch, t, y, mo, da, r, hv, hshape⟩ := rows_spec lp dd combos fs row hrow
  exact ⟨_, by rw [hshape, rowString_head]⟩

/-- Claim C7 (amended): every appended row has exactly 9 comma-separated
fields in header order with the date field in `YYYY-MM-DD` shape and no
embedded newline, provided the extracted field renderings and the source
name are comma- and newline-free and the event year has four digits
(`{0:d}` does not pad the year, see the counterexample). -/
theorem C7_row_schema (lp : String) (dd : DocData) (combos : List Combination) (fs : FS)
    (hq : ∀ (k : QKey) (ch : EnergyChannel) (t : String),
      ',' ∉ (pyStr (dd.quant k ch t)).data ∧ '\n' ∉ (pyStr (dd.quant k ch t)).data)
    (hname : ',' ∉ (deriveExpName dd.short_name dd.options).data ∧
      '\n' ∉ (deriveExpName dd.short_name dd.options).data)
    (hdt : ∀ ch t y mo da r,
      dd.quant QKey.event_length_start_time ch t = .pydatetime y mo da r →
      1000 ≤ y ∧ y < 10000 ∧ 1 ≤ mo ∧ mo ≤ 12 ∧ 1 ≤ da ∧ da ≤ 31) :
    ∀ row ∈ (write_sep_lists lp dd combos fs).rows,
      (splitComma row).length = 9 ∧
      isYYYYMMDD ((splitComma row).getD 1 "") = true ∧
      '\n' ∉ row.data := by
  intro row hrow
  obtain ⟨ch, t, y, mo, da, r, hv, hshape⟩ := rows_spec lp dd combos fs row hrow
  obtain ⟨hy1, hy2, hm1, hm2, hd1, hd2⟩ := hdt ch t y mo da r hv
  have hv1c : ',' ∉ (pyStr (PyVal.pydatetime y mo da r)).data :=
    hv ▸ (hq QKey.event_length_start_time ch t).1
  have hv1n : '\n' ∉ (pyStr (PyVal.pydatetime y mo da r)).data :=
    hv ▸ (hq QKey.event_length_start_time ch t).2
  have hsplit : splitComma row =
      [deriveExpName dd.short_name dd.options, formatDate y mo da,
        pyStr (PyVal.pydatetime y mo da r),
        pyStr (dd.quant QKey.event_length_end_time ch t),
        pyStr (dd.quant QKey.peak_intensity ch t),
        pyStr (dd.quant QKey.peak_intensity_time ch t),
        pyStr (dd.quant QKey.peak_intensity_max ch t),
        pyStr (dd.quant QKey.peak_intensity_max_time ch t),
        pyStr (dd.quant QKey.fluence ch t)] := by
    rw [hshape]
    exact splitComma_rowString _ _ _ _ _ _ _ _ _ hname.1 (formatDate_commaFree y mo da)
      hv1c (hq _ ch t).1 (hq _ ch t).1 (hq _ ch t).1 (hq _ ch t).1 (hq _ ch t).1
      (hq _ ch t).1
  refine ⟨?_, ?_, ?_⟩
  · rw [hsplit]
    rfl
  · rw [hsplit]
    exact isYYYYMMDD_formatDate y mo da hy1 hy2 hm1 hm2 hd1 hd2
  · rw [hshape, rowString_data]
    refine not_mem_append_cons hname.2 (by decide) ?_
    refine not_mem_append_cons (formatDate_nlFree y mo da) (by decide) ?_
    refine not_mem_append_cons hv1n (by decide) ?_
    refine not_mem_append_cons (hq _ ch t).2 (by decide) ?_
    refine not_mem_append_cons (hq _ ch t).2 (by decide) ?_
    refine not_mem_append_cons (hq _ ch t).2 (by decide) ?_
    refine not_mem_append_cons (hq _ ch t).2 (by decide) ?_
    refine not_mem_append_cons (hq _ ch t).2 (by decide) ?_
    exact (hq _ ch t).2



/-- Witness for C5 at a concrete document producing one row. -/
theorem C5_witness :
    rowX ∈ (write_sep_lists lpX ddRowX [comboX] emptyFS).rows ∧
    ∃ rest, rowX = deriveExpName ddRowX.short_name ddRowX.options ++ "," ++ rest :=
  ⟨by decide, C5_source_name.1 lpX ddRowX [comboX] emptyFS rowX (by decide)⟩

/-- Witness for C7 at a concrete document producing one row. -/
theorem C7_witness :
    rowX ∈ (write_sep_lists lpX ddRowX [comboX] emptyFS).rows ∧
    ((splitComma rowX).length = 9 ∧
      isYYYYMMDD ((splitComma rowX).getD 1 "") = true ∧
      '\n' ∉ rowX.data) :=
  ⟨by decide,
    C7_row_schema lpX ddRowX [comboX] emptyFS
      (fun k ch t =>
        ⟨(show ',' ∉ ("2021-09-05 01:02:03").data by decide),
          (show '\n' ∉ ("2021-09-05 01:02:03").data by decide)⟩)
      (by decide)
      (fun ch t y mo da r h => by injection h with h1 h2 h3 h4; omega)
      rowX (by decide)⟩

/-- Claim C7 (counterexample): the `{0:d}` year format does not zero-pad,
so a document with event year 999 yields a written row whose SEP-date field
is `999-01-02`, which is not of the form `YYYY-MM-DD`. -/
theorem C7_cex :
    row999 ∈ (write_sep_lists lpX dd999 [comboX] emptyFS).rows ∧
    (splitComma row999).getD 1 "" = "999-01-02" ∧
    isYYYYMMDD "999-01-02" = false :=
  ⟨by decide, by decide, by decide⟩





/-- Claim C6 (code evaluation at the failing input): a row whose Experiment
column is `user` but which lacks ModelName and UserFilename is accepted
without any error, because the source compares `row[1]` (the EndDate
column) rather than `row[2]` (the Experiment column) against `'user'`; the
read completes normally and returns the row in all lists. -/
theorem C6_user_row_not_fatal : read_sep_dates [rowUser4] = .ok stUser4 := by rfl

/-- Claim C9: a manifest row is treated as a comment and skipped whenever
`#` occurs anywhere in its first field, not only at the start; such a data
row is dropped from all returned lists. -/
theorem C9_hash_anywhere (st : RState) (row : List String) (f0 : String)
    (hget : row.get? 0 = some f0) (hmem : '#' ∈ f0.data) :
    stepRow st row = .ok st ∧
    read_sep_dates [rowGood, rowHash] = read_sep_dates [rowGood] := by
  constructor
  · unfold stepRow
    rw [hget]
    simp [hmem]
  · rfl

/-- Witness for C9 at the concrete mid-field-hash row. -/
theorem C9_witness :
    rowHash.get? 0 = some "2021-01-03 #note" ∧
    stepRow stG rowHash = .ok stG :=
  ⟨rfl, (C9_hash_anywhere stG rowHash "2021-01-03 #note" rfl (by decide)).1⟩

end FetchSep
